import Mathlib

/-!
Verification of the STAGECRAFT design-artifact state machine, library layer,
retry/backoff policy and batch generation loops, as a shallow embedding of the
TypeScript sources (`src/App.tsx`, `src/unnamed/part_000` = `types.ts`,
`src/unnamed/part_003` = `storageService.ts` plus two versions of
`geminiService.ts`).

Conventions of the embedding:
- TypeScript `string` becomes `String`; optional fields (`folder?: string`)
  become `Option String` with `none` playing the role of `undefined`.
- Fallible async operations are modelled by their settled outcome,
  `Except JsError α`; a thrown JS `Error` is modelled by `JsError`
  (its `message` and optional numeric `status`).
- JS `Array.prototype.includes` on strings is modelled by `strIncludes`,
  a plain substring search over the character list.
- IndexedDB object store keyed by `id` is modelled as a `List GeneratedDesign`
  where `put` replaces the record with the same `id` (or appends a fresh one);
  the localStorage folder list is a `List String`.
-/

/-- A thrown JavaScript error: `message` plus the optional numeric `status`
field inspected by the quota classifier (`error.status === 429`). -/
structure JsError where
  message : String
  status : Option Nat
deriving Repr, DecidableEq

/-- Whether `pat` occurs at the start of `text` (character lists). -/
def charsStartWith : List Char → List Char → Bool
  | [], _ => true
  | _ :: _, [] => false
  | p :: ps, c :: cs => p == c && charsStartWith ps cs

/-- Whether `pat` occurs anywhere inside `text` (character lists). -/
def charsContain (pat : List Char) : List Char → Bool
  | [] => pat.isEmpty
  | c :: cs => charsStartWith pat (c :: cs) || charsContain pat cs

/-- JS `s.includes(pat)` for strings. -/
def strIncludes (s pat : String) : Bool :=
  charsContain pat.data s.data

/-- JS `s.toLowerCase()`, character by character over the underlying list. -/
def strToLower (s : String) : String :=
  String.mk (s.data.map Char.toLower)

/-- Structured technical notes carried by a design
(`technicalSpecs` in `types.ts`). -/
structure TechnicalSpecs where
  lighting : String
  video : String
  specialEffects : String
deriving Repr, DecidableEq

/-- The `GeneratedDesign` record of `types.ts` (`src/unnamed/part_000`,
lines 84-101).  `videoUrl`, `variants` and `folder` are optional in the
source; `variants` defaults to the empty list since every writer of the
field supplies an array. -/
structure GeneratedDesign where
  id : String
  imageUrl : String
  videoUrl : Option String
  variants : List String
  imageHistory : List String
  historyIndex : Nat
  conceptTitle : String
  description : String
  transformationSequence : String
  technicalSpecs : TechnicalSpecs
  timestamp : Nat
  folder : Option String
deriving Repr, DecidableEq

/-- Builder filling the metadata fields with fixed neutral values,
used for concrete test designs. -/
def mkDesign (id imageUrl : String) (history : List String) (idx : Nat) :
    GeneratedDesign :=
  { id := id
    imageUrl := imageUrl
    videoUrl := none
    variants := []
    imageHistory := history
    historyIndex := idx
    conceptTitle := ""
    description := ""
    transformationSequence := ""
    technicalSpecs := { lighting := "", video := "", specialEffects := "" }
    timestamp := 0
    folder := none }

/-- The image shown for a design: `history[cursor]`
(out-of-range reads, impossible under the invariant, give `""`). -/
def currentImage (d : GeneratedDesign) : String :=
  d.imageHistory.getD d.historyIndex ""

/-- The design invariant: non-empty history and in-range cursor. -/
def WfDesign (d : GeneratedDesign) : Prop :=
  d.imageHistory ≠ [] ∧ d.historyIndex < d.imageHistory.length

/-- Success path of `handleEditImage` (`src/App.tsx` lines 216-226):
truncate the history after the cursor, append the new image, move the
cursor to the new tail. -/
def editImageUpdate (prev : GeneratedDesign) (newImageUrl : String) :
    GeneratedDesign :=
  let newHistory := prev.imageHistory.take (prev.historyIndex + 1) ++ [newImageUrl]
  { prev with
    imageUrl := newImageUrl
    imageHistory := newHistory
    historyIndex := newHistory.length - 1 }

/-- Success path of `handleViewpointChange` (`src/App.tsx` lines 250-260);
its history logic is textually identical to `handleEditImage`. -/
def viewpointUpdate (prev : GeneratedDesign) (newImageUrl : String) :
    GeneratedDesign :=
  let newHistory := prev.imageHistory.take (prev.historyIndex + 1) ++ [newImageUrl]
  { prev with
    imageUrl := newImageUrl
    imageHistory := newHistory
    historyIndex := newHistory.length - 1 }

/-- `handleUndo` (`src/App.tsx` lines 368-378) on a non-null design:
no-op when `historyIndex <= 0`, otherwise step the cursor back and show
that history entry. -/
def handleUndo (d : GeneratedDesign) : GeneratedDesign :=
  if d.historyIndex ≤ 0 then d
  else
    let newIndex := d.historyIndex - 1
    { d with
      imageUrl := d.imageHistory.getD newIndex ""
      historyIndex := newIndex }

/-- `handleRedo` (`src/App.tsx` lines 380-390) on a non-null design:
no-op when `historyIndex >= imageHistory.length - 1`, otherwise step the
cursor forward and show that history entry. -/
def handleRedo (d : GeneratedDesign) : GeneratedDesign :=
  if d.imageHistory.length - 1 ≤ d.historyIndex then d
  else
    let newIndex := d.historyIndex + 1
    { d with
      imageUrl := d.imageHistory.getD newIndex ""
      historyIndex := newIndex }

/-- One history-mutating user action, for reasoning about sequences of
operations on a design. -/
inductive HistoryOp where
  | append (img : String)
  | undo
  | redo

/-- Apply one history operation (append is the edit-image update). -/
def applyOp (d : GeneratedDesign) : HistoryOp → GeneratedDesign
  | .append img => editImageUpdate d img
  | .undo => handleUndo d
  | .redo => handleRedo d

/-- Apply a sequence of history operations, oldest first. -/
def applyOps (d : GeneratedDesign) (ops : List HistoryOp) : GeneratedDesign :=
  ops.foldl applyOp d

theorem editImageUpdate_wf (d : GeneratedDesign) (img : String) :
    WfDesign (editImageUpdate d img) := by
  constructor
  · simp [editImageUpdate]
  · simp [editImageUpdate]

theorem handleUndo_wf (d : GeneratedDesign) (h : WfDesign d) :
    WfDesign (handleUndo d) := by
  obtain ⟨h1, h2⟩ := h
  unfold handleUndo
  split
  · exact ⟨h1, h2⟩
  · refine ⟨h1, ?_⟩
    simp only
    omega

theorem handleRedo_wf (d : GeneratedDesign) (h : WfDesign d) :
    WfDesign (handleRedo d) := by
  obtain ⟨h1, h2⟩ := h
  unfold handleRedo
  split
  next hc =>
    exact ⟨h1, h2⟩
  next hc =>
    refine ⟨h1, ?_⟩
    simp only
    omega

theorem applyOp_wf (d : GeneratedDesign) (op : HistoryOp) (h : WfDesign d) :
    WfDesign (applyOp d op) := by
  cases op with
  | append img => exact editImageUpdate_wf d img
  | undo => exact handleUndo_wf d h
  | redo => exact handleRedo_wf d h

theorem applyOps_wf (d : GeneratedDesign) (ops : List HistoryOp)
    (h : WfDesign d) : WfDesign (applyOps d ops) := by
  induction ops generalizing d with
  | nil => exact h
  | cons op rest ih => exact ih (applyOp d op) (applyOp_wf d op h)

theorem handleUndo_imageHistory (d : GeneratedDesign) :
    (handleUndo d).imageHistory = d.imageHistory := by
  unfold handleUndo
  split <;> rfl

theorem handleRedo_imageHistory (d : GeneratedDesign) :
    (handleRedo d).imageHistory = d.imageHistory := by
  unfold handleRedo
  split <;> rfl

theorem getD_append_singleton (l : List String) (x dflt : String) :
    (l ++ [x]).getD l.length dflt = x := by
  induction l with
  | nil => rfl
  | cons a as ih =>
    simp only [List.cons_append, List.length_cons, List.getD_cons_succ]
    exact ih

/-- C1: an image-mutating operation (edit or viewpoint-change) truncates the
history to indices `0..cursor`, appends the new image, and moves the cursor to
the new last index (one past the old cursor), making the new image current;
concretely, from history `[a,b,c]` with cursor 2, undo followed by appending
`d` yields history `[a,b,d]`, cursor 2, current image `d`. -/
theorem edit_append_truncates_history (d : GeneratedDesign) (img : String)
    (h : WfDesign d) :
    (editImageUpdate d img).imageHistory
        = d.imageHistory.take (d.historyIndex + 1) ++ [img]
    ∧ (editImageUpdate d img).historyIndex = d.historyIndex + 1
    ∧ currentImage (editImageUpdate d img) = img
    ∧ (viewpointUpdate d img).imageHistory
        = d.imageHistory.take (d.historyIndex + 1) ++ [img]
    ∧ (viewpointUpdate d img).historyIndex = d.historyIndex + 1
    ∧ currentImage (viewpointUpdate d img) = img
    ∧ editImageUpdate (handleUndo (mkDesign "x" "c" ["a", "b", "c"] 2)) "d"
        = mkDesign "x" "d" ["a", "b", "d"] 2 := by
  obtain ⟨h1, h2⟩ := h
  have hlen : (d.imageHistory.take (d.historyIndex + 1)).length
      = d.historyIndex + 1 := by
    rw [List.length_take]
    omega
  have hn : (d.imageHistory.take (d.historyIndex + 1) ++ [img]).length - 1
      = (d.imageHistory.take (d.historyIndex + 1)).length := by
    simp
  refine ⟨rfl, ?_, ?_, rfl, ?_, ?_, by decide⟩
  · simp only [editImageUpdate, List.length_append, hlen, List.length_singleton]
    omega
  · show (d.imageHistory.take (d.historyIndex + 1) ++ [img]).getD
        ((d.imageHistory.take (d.historyIndex + 1) ++ [img]).length - 1) "" = img
    rw [hn]
    exact getD_append_singleton _ img ""
  · simp only [viewpointUpdate, List.length_append, hlen, List.length_singleton]
    omega
  · show (d.imageHistory.take (d.historyIndex + 1) ++ [img]).getD
        ((d.imageHistory.take (d.historyIndex + 1) ++ [img]).length - 1) "" = img
    rw [hn]
    exact getD_append_singleton _ img ""

theorem edit_append_truncates_history_witness :
    WfDesign (mkDesign "x" "b" ["a", "b", "c"] 1)
    ∧ (editImageUpdate (mkDesign "x" "b" ["a", "b", "c"] 1) "d").imageHistory
        = ["a", "b", "d"] := by
  have hwf : WfDesign (mkDesign "x" "b" ["a", "b", "c"] 1) := by
    unfold WfDesign
    exact ⟨by decide, by decide⟩
  refine ⟨hwf, ?_⟩
  have h := edit_append_truncates_history (mkDesign "x" "b" ["a", "b", "c"] 1)
    "d" hwf
  rw [h.1]
  decide

/-- C2: over any sequence of append, undo and redo operations starting from a
well-formed design, the cursor stays within `[0, len(history)-1]`;
undo at cursor 0 and redo at the last index are no-ops; and undo and redo
never change the contents of the history. -/
theorem history_ops_invariant (d : GeneratedDesign) (ops : List HistoryOp)
    (h : WfDesign d) :
    (applyOps d ops).historyIndex < (applyOps d ops).imageHistory.length
    ∧ (d.historyIndex = 0 → handleUndo d = d)
    ∧ (d.historyIndex = d.imageHistory.length - 1 → handleRedo d = d)
    ∧ (handleUndo d).imageHistory = d.imageHistory
    ∧ (handleRedo d).imageHistory = d.imageHistory := by
  refine ⟨(applyOps_wf d ops h).2, ?_, ?_, handleUndo_imageHistory d,
    handleRedo_imageHistory d⟩
  · intro h0
    unfold handleUndo
    simp [h0]
  · intro htail
    unfold handleRedo
    simp [htail]

theorem history_ops_invariant_witness :
    WfDesign (mkDesign "x" "a" ["a", "b"] 0)
    ∧ (applyOps (mkDesign "x" "a" ["a", "b"] 0)
        [HistoryOp.redo, HistoryOp.undo, HistoryOp.append "c",
         HistoryOp.undo, HistoryOp.undo]).historyIndex
      < (applyOps (mkDesign "x" "a" ["a", "b"] 0)
        [HistoryOp.redo, HistoryOp.undo, HistoryOp.append "c",
         HistoryOp.undo, HistoryOp.undo]).imageHistory.length := by
  have hwf : WfDesign (mkDesign "x" "a" ["a", "b"] 0) := by
    unfold WfDesign
    exact ⟨by decide, by decide⟩
  exact ⟨hwf, (history_ops_invariant (mkDesign "x" "a" ["a", "b"] 0)
    [HistoryOp.redo, HistoryOp.undo, HistoryOp.append "c",
     HistoryOp.undo, HistoryOp.undo] hwf).1⟩

/-- The persistent state of `storageService.ts`: the IndexedDB object store
of designs keyed by `id`, and the localStorage folder-name list. -/
structure LibraryState where
  designs : List GeneratedDesign
  folders : List String
deriving Repr, DecidableEq

/-- IndexedDB `store.put` on a store keyed by `id`: replace the record with
the same key if present, otherwise add the record. -/
def idbPut (designs : List GeneratedDesign) (d : GeneratedDesign) :
    List GeneratedDesign :=
  if designs.any (fun x => x.id == d.id) then
    designs.map (fun x => if x.id == d.id then d else x)
  else designs ++ [d]

/-- `saveDesignToLibrary` (`src/unnamed/part_003` lines 53-85): read the
existing record with the same id, keep its `folder` when the incoming record
leaves `folder` undefined (`design.folder !== undefined ? design.folder :
currentDesign?.folder`), then `put` the merged record. -/
def saveDesignToLibrary (st : LibraryState) (design : GeneratedDesign) :
    LibraryState :=
  let current := st.designs.find? (fun x => x.id == design.id)
  let designToSave :=
    { design with
      folder := match design.folder with
        | some f => some f
        | none => current.bind GeneratedDesign.folder }
  { st with designs := idbPut st.designs designToSave }

/-- `deleteFolder` (`src/unnamed/part_003` lines 127-155): drop the name from
the folder list, and `put` a copy with `folder: undefined` for every design
whose `folder` strictly equals the name (the keyed `put` makes this a map
over the store). -/
def deleteFolder (st : LibraryState) (folderName : String) : LibraryState :=
  { folders := st.folders.filter (fun f => f != folderName)
    designs := st.designs.map (fun d =>
      if d.folder = some folderName then { d with folder := none } else d) }

theorem find_idbPut (designs : List GeneratedDesign) (d : GeneratedDesign) :
    (idbPut designs d).find? (fun x => x.id == d.id) = some d := by
  unfold idbPut
  by_cases ha : designs.any (fun x => x.id == d.id) = true
  · rw [if_pos ha]
    revert ha
    induction designs with
    | nil =>
      intro ha
      simp at ha
    | cons a as ih =>
      intro ha
      by_cases hid : (a.id == d.id) = true
      · simp only [List.map_cons, if_pos hid]
        exact List.find?_cons_of_pos _ (by simp)
      · simp only [List.map_cons, if_neg hid]
        rw [List.find?_cons_of_neg _ (by simp [hid])]
        apply ih
        simp only [List.any_cons, hid, Bool.false_or] at ha
        exact ha
  · rw [if_neg ha]
    have hnone : designs.find? (fun x => x.id == d.id) = none := by
      rw [List.find?_eq_none]
      intro x hx hpx
      exact ha (List.any_eq_true.mpr ⟨x, hx, hpx⟩)
    rw [List.find?_append, hnone]
    simp [List.find?]

/-- Concrete library holding one design with id `x` assigned to folder `F`. -/
def libWithFolderF : LibraryState :=
  { designs := [{ mkDesign "x" "a" ["a"] 0 with folder := some "F" }]
    folders := ["F"] }

/-- C4 counterexample: upserting a record for the existing id `x` with its
folder field set to none (the JS `undefined`, the only representation of an
absent folder in `folder?: string`) does NOT clear the stored folder — the
stored record keeps folder `F`.  The claim says this upsert produces a stored
record with no folder. -/
theorem upsert_explicit_none_counterexample :
    (saveDesignToLibrary libWithFolderF (mkDesign "x" "a" ["a"] 0)).designs
      = [{ mkDesign "x" "a" ["a"] 0 with folder := some "F" }]
    ∧ ((saveDesignToLibrary libWithFolderF
        (mkDesign "x" "a" ["a"] 0)).designs.map GeneratedDesign.folder
      ≠ [none]) := by
  constructor
  · rfl
  · decide

/-- C4 amended: upsert on an existing id with the incoming folder field unset
(none / `undefined`) preserves the previously stored folder value; an upsert
whose incoming folder field carries a value stores that value.  There is no
way to clear the folder through upsert: clearing happens only through
`moveDesignToFolder` or `deleteFolder`. -/
theorem upsert_folder_partial_update (st : LibraryState)
    (design old : GeneratedDesign)
    (hfind : st.designs.find? (fun x => x.id == design.id) = some old) :
    (design.folder = none →
      (saveDesignToLibrary st design).designs.find?
          (fun x => x.id == design.id)
        = some { design with folder := old.folder })
    ∧ (∀ f, design.folder = some f →
      (saveDesignToLibrary st design).designs.find?
          (fun x => x.id == design.id)
        = some { design with folder := some f }) := by
  constructor
  · intro hnone
    unfold saveDesignToLibrary
    simp only [hfind, hnone, Option.some_bind]
    exact find_idbPut st.designs { design with folder := old.folder }
  · intro f hsome
    unfold saveDesignToLibrary
    simp only [hsome]
    exact find_idbPut st.designs { design with folder := some f }

theorem upsert_folder_partial_update_witness :
    libWithFolderF.designs.find?
        (fun x => x.id == (mkDesign "x" "b" ["b"] 0).id)
      = some { mkDesign "x" "a" ["a"] 0 with folder := some "F" }
    ∧ (mkDesign "x" "b" ["b"] 0).folder = none
    ∧ (saveDesignToLibrary libWithFolderF (mkDesign "x" "b" ["b"] 0)).designs.find?
        (fun x => x.id == (mkDesign "x" "b" ["b"] 0).id)
      = some { mkDesign "x" "b" ["b"] 0 with folder := some "F" } := by
  refine ⟨by decide, rfl, ?_⟩
  have h := (upsert_folder_partial_update libWithFolderF
    (mkDesign "x" "b" ["b"] 0)
    { mkDesign "x" "a" ["a"] 0 with folder := some "F" } (by decide)).1 rfl
  exact h

/-- C9: deleting a folder removes the name from the folder list (a re-listing
no longer contains it), keeps every design record (same ids, in order),
leaves no design assigned to the deleted name, keeps designs of other folders
(or of no folder) unchanged, and clears the folder field of exactly the
designs that referenced the deleted name. -/
theorem deleteFolder_spec (st : LibraryState) (name : String) :
    name ∉ (deleteFolder st name).folders
    ∧ (deleteFolder st name).designs.map GeneratedDesign.id
        = st.designs.map GeneratedDesign.id
    ∧ (∀ d ∈ (deleteFolder st name).designs, d.folder ≠ some name)
    ∧ (∀ d ∈ st.designs, d.folder ≠ some name
        → d ∈ (deleteFolder st name).designs)
    ∧ (∀ d ∈ st.designs, d.folder = some name
        → { d with folder := none } ∈ (deleteFolder st name).designs) := by
  refine ⟨?_, ?_, ?_, ?_, ?_⟩
  · unfold deleteFolder
    simp [List.mem_filter]
  · unfold deleteFolder
    simp only [List.map_map]
    apply List.map_congr_left
    intro d _
    by_cases hd : d.folder = some name
    · simp [hd]
    · simp [hd]
  · intro d hd
    unfold deleteFolder at hd
    simp only [List.mem_map] at hd
    obtain ⟨x, _, hx⟩ := hd
    by_cases hxf : x.folder = some name
    · rw [if_pos hxf] at hx
      rw [← hx]
      simp
    · rw [if_neg hxf] at hx
      rw [← hx]
      exact hxf
  · intro d hd hne
    unfold deleteFolder
    simp only [List.mem_map]
    exact ⟨d, hd, by rw [if_neg hne]⟩
  · intro d hd heq
    unfold deleteFolder
    simp only [List.mem_map]
    exact ⟨d, hd, by rw [if_pos heq]⟩

theorem deleteFolder_spec_witness :
    "F" ∉ (deleteFolder libWithFolderF "F").folders
    ∧ ({ mkDesign "x" "a" ["a"] 0 with folder := some "F" }
          ∈ libWithFolderF.designs
        ∧ ({ mkDesign "x" "a" ["a"] 0 with folder := some "F" }).folder
            = some "F"
        ∧ mkDesign "x" "a" ["a"] 0 ∈ (deleteFolder libWithFolderF "F").designs) := by
  have h := deleteFolder_spec libWithFolderF "F"
  refine ⟨h.1, by decide, rfl, ?_⟩
  have h5 := h.2.2.2.2 { mkDesign "x" "a" ["a"] 0 with folder := some "F" }
    (by decide) rfl
  exact h5

/-- The quota/rate-limit classifier of `retryWithBackoff`
(`src/unnamed/part_003` lines 266-268): message contains `429`, lowercased
message contains `quota`, or `status === 429`. -/
def isQuotaError (e : JsError) : Bool :=
  strIncludes e.message "429" || strIncludes (strToLower e.message) "quota"
    || e.status == some 429

/-- The quota test used by the batch loop when deciding to stop early
(`src/unnamed/part_003` line 445): message contains `429` or lowercased
message contains `quota` (no status check). -/
def isQuotaMessage (e : JsError) : Bool :=
  strIncludes e.message "429" || strIncludes (strToLower e.message) "quota"

/-- Loop body of `retryWithBackoff` (`src/unnamed/part_003` lines 258-282).
`op i` is the outcome of attempt `i` (0-based); the remaining iteration
count drives the recursion; `acc` accumulates the total backoff delay.
Returns the settled outcome, the total delay waited, and the number of
attempts made.  The base case models the trailing `throw lastError`, which
is reachable only when `retries = 0` (then `lastError` is `undefined`). -/
def retryGo {α : Type} (op : Nat → Except JsError α)
    (retries initialDelay : Nat) :
    Nat → Nat → Nat → Except JsError α × Nat × Nat
  | 0, i, acc => (.error { message := "undefined", status := none }, acc, i)
  | remaining + 1, i, acc =>
    match op i with
    | .ok v => (.ok v, acc, i + 1)
    | .error e =>
      if isQuotaError e ∧ i + 1 < retries then
        retryGo op retries initialDelay remaining (i + 1)
          (acc + initialDelay * 2 ^ i)
      else (.error e, acc, i + 1)

/-- `retryWithBackoff(operation, retries = 3, initialDelay = 2000)`:
run up to `retries` attempts, backing off `initialDelay * 2^attempt` before
each retry of a quota-shaped failure. -/
def retryWithBackoff {α : Type} (op : Nat → Except JsError α)
    (retries initialDelay : Nat) : Except JsError α × Nat × Nat :=
  retryGo op retries initialDelay retries 0 0

/-- C7: an operation failing twice with rate-limit-shaped errors and
succeeding on the third attempt, run with retries = 3 and initial delay
2000ms, returns the success value after three attempts, and the total
backoff waited is `2000 * 2^0 + 2000 * 2^1` (the delay before retry `i`
being `initialDelay * 2^i`), that is 6000ms. -/
theorem retry_backoff_two_quota_failures {α : Type} (v : α) (e1 e2 : JsError)
    (h1 : isQuotaError e1 = true) (h2 : isQuotaError e2 = true) :
    retryWithBackoff
        (fun i => if i = 0 then .error e1 else if i = 1 then .error e2
          else .ok v) 3 2000
      = (.ok v, 2000 * 2 ^ 0 + 2000 * 2 ^ 1, 3)
    ∧ 2000 * 2 ^ 0 + 2000 * 2 ^ 1 = 6000 := by
  refine ⟨?_, by norm_num⟩
  simp [retryWithBackoff, retryGo, h1, h2]

theorem retry_backoff_two_quota_failures_witness :
    isQuotaError { message := "429", status := none } = true
    ∧ retryWithBackoff
        (fun i => if i = 0 then .error { message := "429", status := none }
          else if i = 1 then .error { message := "429", status := none }
          else .ok (7 : Nat)) 3 2000
      = (.ok 7, 2000 * 2 ^ 0 + 2000 * 2 ^ 1, 3) := by
  have hq : isQuotaError { message := "429", status := none } = true := by
    decide
  exact ⟨hq, (retry_backoff_two_quota_failures (7 : Nat)
    { message := "429", status := none }
    { message := "429", status := none } hq hq).1⟩

/-- C8: an operation whose first attempt fails with an error that does not
match the quota/rate-limit signature propagates that error immediately:
one attempt, no backoff delay, however many retries remain. -/
theorem retry_non_quota_fails_fast {α : Type} (op : Nat → Except JsError α)
    (retries initialDelay : Nat) (e : JsError)
    (hop : op 0 = .error e) (hq : isQuotaError e = false)
    (hr : 1 ≤ retries) :
    retryWithBackoff op retries initialDelay = (.error e, 0, 1) := by
  obtain ⟨r, rfl⟩ : ∃ r, retries = r + 1 := ⟨retries - 1, by omega⟩
  unfold retryWithBackoff
  unfold retryGo
  rw [hop]
  simp [hq]

theorem retry_non_quota_fails_fast_witness :
    isQuotaError { message := "network down", status := none } = false
    ∧ retryWithBackoff
        (fun _ => (.error { message := "network down", status := none }
          : Except JsError Nat)) 3 2000
      = (.error { message := "network down", status := none }, 0, 1) := by
  have hq : isQuotaError { message := "network down", status := none }
      = false := by decide
  exact ⟨hq, retry_non_quota_fails_fast
    (fun _ => (.error { message := "network down", status := none }
      : Except JsError Nat)) 3 2000
    { message := "network down", status := none } rfl hq (by norm_num)⟩

/-- Images contributed by the successful calls of a settled outcome list,
in order (each success pushes every inline-data part of its response). -/
def okImages : List (Except JsError (List String)) → List String
  | [] => []
  | .ok imgs :: rest => imgs ++ okImages rest
  | .error _ :: rest => okImages rest

/-- Sequential generation loop of the primary `generateStageImage`
(`src/unnamed/part_003` lines 401-450), also the loop of the primary
`generateSimilarVariant` (lines 593-634): each entry of the list is one
call's settled outcome after its retries (the images pushed on success, or
the error caught).  `acc` is the images collected so far and `k` the number
of calls attempted; a quota-shaped error breaks out of the loop, any other
error is logged and skipped.  Returns the collected images and the number
of calls attempted. -/
def batchLoopV1Acc (acc : List String) (k : Nat) :
    List (Except JsError (List String)) → List String × Nat
  | [] => (acc, k)
  | .ok imgs :: rest => batchLoopV1Acc (acc ++ imgs) (k + 1) rest
  | .error e :: rest =>
    if isQuotaMessage e then (acc, k + 1)
    else batchLoopV1Acc acc (k + 1) rest

/-- The primary batch loop run from an empty accumulator. -/
def batchLoopV1 (outcomes : List (Except JsError (List String))) :
    List String × Nat :=
  batchLoopV1Acc [] 0 outcomes

/-- Images contributed by the successful calls of the alternate service
(at most one image per response, the first inline-data part). -/
def okImagesV2 : List (Except JsError (Option String)) → List String
  | [] => []
  | .ok img? :: rest => img?.toList ++ okImagesV2 rest
  | .error _ :: rest => okImagesV2 rest

/-- Sequential generation loop of the alternate `generateStageImage`
(`src/unnamed/part_003` lines 1042-1065): a success contributes at most one
image (the first inline-data part); the `catch` clause breaks out of the
loop on ANY error, quota-shaped or not. -/
def batchLoopV2Acc (acc : List String) (k : Nat) :
    List (Except JsError (Option String)) → List String × Nat
  | [] => (acc, k)
  | .ok img? :: rest => batchLoopV2Acc (acc ++ img?.toList) (k + 1) rest
  | .error _ :: _ => (acc, k + 1)

/-- The alternate batch loop run from an empty accumulator. -/
def batchLoopV2 (outcomes : List (Except JsError (Option String))) :
    List String × Nat :=
  batchLoopV2Acc [] 0 outcomes

/-- The `NoArtifacts`-style error of the primary `generateStageImage`
(`src/unnamed/part_003` line 453). -/
def noImagesError : JsError :=
  { message := "No image generated (All attempts failed or Quota exceeded)"
    status := none }

/-- The `NoArtifacts`-style error of the primary `generateSimilarVariant`
(`src/unnamed/part_003` line 638). -/
def noVariantError : JsError :=
  { message := "No similar variant returned (All attempts failed or Quota exceeded)"
    status := none }

/-- Result of the primary `generateStageImage` (`src/unnamed/part_003`
lines 452-453): the collected images if any, otherwise the no-image error. -/
def generateStageImage (outcomes : List (Except JsError (List String))) :
    Except JsError (List String) :=
  let images := (batchLoopV1 outcomes).1
  if 0 < images.length then .ok images else .error noImagesError

/-- Result of the primary `generateSimilarVariant` (`src/unnamed/part_003`
lines 636-638): the collected images if any, otherwise the no-variant
error. -/
def generateSimilarVariant (outcomes : List (Except JsError (List String))) :
    Except JsError (List String) :=
  let images := (batchLoopV1 outcomes).1
  if 0 < images.length then .ok images else .error noVariantError

theorem batchLoopV1Acc_no_quota (outcomes : List (Except JsError (List String))) :
    ∀ acc k, (∀ e, Except.error e ∈ outcomes → isQuotaMessage e = false) →
    batchLoopV1Acc acc k outcomes = (acc ++ okImages outcomes, k + outcomes.length) := by
  induction outcomes with
  | nil =>
    intro acc k _
    simp [batchLoopV1Acc, okImages]
  | cons x rest ih =>
    intro acc k hcl
    cases x with
    | ok imgs =>
      rw [show batchLoopV1Acc acc k (Except.ok imgs :: rest)
          = batchLoopV1Acc (acc ++ imgs) (k + 1) rest from rfl]
      rw [ih (acc ++ imgs) (k + 1) (fun e he => hcl e (List.mem_cons_of_mem _ he))]
      simp [okImages, List.append_assoc]
      omega
    | error e =>
      have hq : isQuotaMessage e = false := hcl e (List.mem_cons_self _ _)
      rw [show batchLoopV1Acc acc k (Except.error e :: rest)
          = if isQuotaMessage e then (acc, k + 1)
            else batchLoopV1Acc acc (k + 1) rest from rfl]
      rw [hq]
      simp only [Bool.false_eq_true, if_false]
      rw [ih acc (k + 1) (fun e' he => hcl e' (List.mem_cons_of_mem _ he))]
      simp [okImages]
      omega

theorem batchLoopV1Acc_quota_stop (pre : List (Except JsError (List String)))
    (e : JsError) (post : List (Except JsError (List String))) :
    ∀ acc k, (∀ e', Except.error e' ∈ pre → isQuotaMessage e' = false) →
    isQuotaMessage e = true →
    batchLoopV1Acc acc k (pre ++ Except.error e :: post)
      = (acc ++ okImages pre, k + pre.length + 1) := by
  induction pre with
  | nil =>
    intro acc k _ hq
    rw [List.nil_append]
    rw [show batchLoopV1Acc acc k (Except.error e :: post)
        = if isQuotaMessage e then (acc, k + 1)
          else batchLoopV1Acc acc (k + 1) post from rfl]
    rw [hq]
    simp [okImages]
  | cons x rest ih =>
    intro acc k hcl hq
    cases x with
    | ok imgs =>
      rw [List.cons_append]
      rw [show batchLoopV1Acc acc k (Except.ok imgs :: (rest ++ Except.error e :: post))
          = batchLoopV1Acc (acc ++ imgs) (k + 1) (rest ++ Except.error e :: post)
          from rfl]
      rw [ih (acc ++ imgs) (k + 1)
        (fun e' he => hcl e' (List.mem_cons_of_mem _ he)) hq]
      simp [okImages, List.append_assoc]
      omega
    | error e' =>
      have hq' : isQuotaMessage e' = false := hcl e' (List.mem_cons_self _ _)
      rw [List.cons_append]
      rw [show batchLoopV1Acc acc k (Except.error e' :: (rest ++ Except.error e :: post))
          = if isQuotaMessage e' then (acc, k + 1)
            else batchLoopV1Acc acc (k + 1) (rest ++ Except.error e :: post)
          from rfl]
      rw [hq']
      simp only [Bool.false_eq_true, if_false]
      rw [ih acc (k + 1) (fun x hx => hcl x (List.mem_cons_of_mem _ hx)) hq]
      simp [okImages]
      omega

theorem batchLoopV2Acc_stops_on_any_error
    (pre : List (Except JsError (Option String))) (e : JsError)
    (post : List (Except JsError (Option String))) :
    ∀ acc k, (∀ x ∈ pre, Except.isOk x = true) →
    batchLoopV2Acc acc k (pre ++ Except.error e :: post)
      = (acc ++ okImagesV2 pre, k + pre.length + 1) := by
  induction pre with
  | nil =>
    intro acc k _
    simp [batchLoopV2Acc, okImagesV2]
  | cons x rest ih =>
    intro acc k hok
    cases x with
    | ok img? =>
      rw [List.cons_append]
      rw [show batchLoopV2Acc acc k (Except.ok img? :: (rest ++ Except.error e :: post))
          = batchLoopV2Acc (acc ++ img?.toList) (k + 1) (rest ++ Except.error e :: post)
          from rfl]
      rw [ih (acc ++ img?.toList) (k + 1)
        (fun x hx => hok x (List.mem_cons_of_mem _ hx))]
      simp [okImagesV2, List.append_assoc]
      omega
    | error e' =>
      have := hok (Except.error e') (List.mem_cons_self _ _)
      simp [Except.isOk, Except.toBool] at this

/-- C5 counterexample: in the alternate `generateStageImage` batch loop
(`src/unnamed/part_003` lines 1042-1065), a per-call failure that is NOT a
rate-limit failure still stops the batch.  With N = 2 settled outcomes where
call 1 fails with a plain network error and call 2 would succeed with an
image, only one call is attempted and no image is collected — the claim
requires call 2 to still be attempted and its success collected. -/
theorem batch_stops_on_non_quota_counterexample :
    isQuotaMessage { message := "network down", status := none } = false
    ∧ batchLoopV2 [Except.error { message := "network down", status := none },
        Except.ok (some "img1")] = ([], 1) :=
  ⟨by decide, rfl⟩

/-- C5 amended: in the primary batch loop (`generateStageImage` /
`generateSimilarVariant`, `src/unnamed/part_003` lines 404-450 and 596-634)
a per-call failure that is not quota-shaped does not stop the batch: when no
quota-shaped failure occurs, every call is attempted and all successes are
collected; a quota-shaped failure stops the batch immediately after the
failing call, the earlier successes are still returned, and the remaining
calls are never attempted.  In the alternate batch loop (lines 1042-1065),
by contrast, ANY per-call failure stops the batch, with the images produced
so far returned. -/
theorem batch_failure_policy
    (outcomes pre post : List (Except JsError (List String)))
    (e : JsError)
    (preB : List (Except JsError (Option String)))
    (eB : JsError) (postB : List (Except JsError (Option String)))
    (hnoq : ∀ x, Except.error x ∈ outcomes → isQuotaMessage x = false)
    (hpre : ∀ x, Except.error x ∈ pre → isQuotaMessage x = false)
    (hq : isQuotaMessage e = true)
    (hokB : ∀ x ∈ preB, Except.isOk x = true) :
    batchLoopV1 outcomes = (okImages outcomes, outcomes.length)
    ∧ batchLoopV1 (pre ++ Except.error e :: post)
        = (okImages pre, pre.length + 1)
    ∧ batchLoopV2 (preB ++ Except.error eB :: postB)
        = (okImagesV2 preB, preB.length + 1) := by
  refine ⟨?_, ?_, ?_⟩
  · rw [show batchLoopV1 outcomes = batchLoopV1Acc [] 0 outcomes from rfl]
    rw [batchLoopV1Acc_no_quota outcomes [] 0 hnoq]
    simp
  · rw [show batchLoopV1 (pre ++ Except.error e :: post)
        = batchLoopV1Acc [] 0 (pre ++ Except.error e :: post) from rfl]
    rw [batchLoopV1Acc_quota_stop pre e post [] 0 hpre hq]
    simp
  · rw [show batchLoopV2 (preB ++ Except.error eB :: postB)
        = batchLoopV2Acc [] 0 (preB ++ Except.error eB :: postB) from rfl]
    rw [batchLoopV2Acc_stops_on_any_error preB eB postB [] 0 hokB]
    simp

theorem batch_failure_policy_witness :
    batchLoopV1 [Except.ok ["i1"],
        Except.error { message := "network down", status := none },
        Except.ok ["i3"]]
      = (["i1", "i3"], 3)
    ∧ batchLoopV1 [Except.ok ["i1"],
        Except.error { message := "429", status := none }, Except.ok ["i2"]]
      = (["i1"], 2)
    ∧ batchLoopV2 [Except.ok (some "b1"),
        Except.error { message := "x", status := none },
        Except.ok (some "b2")]
      = (["b1"], 2) := by
  have hnoq : ∀ x, Except.error x ∈ [Except.ok ["i1"],
      Except.error { message := "network down", status := none },
      Except.ok ["i3"]] → isQuotaMessage x = false := by
    intro x hx
    simp at hx
    subst hx
    decide
  have hpre : ∀ x, Except.error x ∈ [Except.ok ["i1"]] →
      isQuotaMessage x = false := by
    intro x hx
    simp at hx
  have hokB : ∀ x ∈ ([Except.ok (some "b1")] :
      List (Except JsError (Option String))),
      Except.isOk x = (true : Bool) := by
    intro x hx
    simp at hx
    subst hx
    rfl
  have h := batch_failure_policy
    [Except.ok ["i1"],
      Except.error { message := "network down", status := none },
      Except.ok ["i3"]]
    [Except.ok ["i1"]] [Except.ok ["i2"]]
    { message := "429", status := none }
    [Except.ok (some "b1")] { message := "x", status := none }
    [Except.ok (some "b2")]
    hnoq hpre (by decide) hokB
  refine ⟨?_, ?_, ?_⟩
  · rw [h.1]
    decide
  · have h2 := h.2.1
    rw [List.singleton_append] at h2
    rw [h2]
    decide
  · have h3 := h.2.2
    rw [List.singleton_append] at h3
    rw [h3]
    decide

theorem batchLoopV1Acc_length_le
    (outcomes : List (Except JsError (List String))) :
    ∀ acc k, (∀ imgs, Except.ok imgs ∈ outcomes → imgs.length ≤ 1) →
    (batchLoopV1Acc acc k outcomes).1.length
      ≤ acc.length + outcomes.length := by
  induction outcomes with
  | nil =>
    intro acc k _
    simp [batchLoopV1Acc]
  | cons x rest ih =>
    intro acc k hone
    cases x with
    | ok imgs =>
      have h1 : imgs.length ≤ 1 := hone imgs (List.mem_cons_self _ _)
      rw [show batchLoopV1Acc acc k (Except.ok imgs :: rest)
          = batchLoopV1Acc (acc ++ imgs) (k + 1) rest from rfl]
      have := ih (acc ++ imgs) (k + 1)
        (fun i hi => hone i (List.mem_cons_of_mem _ hi))
      simp only [List.length_append, List.length_cons] at this ⊢
      omega
    | error e =>
      rw [show batchLoopV1Acc acc k (Except.error e :: rest)
          = if isQuotaMessage e then (acc, k + 1)
            else batchLoopV1Acc acc (k + 1) rest from rfl]
      by_cases hq : isQuotaMessage e
      · rw [if_pos hq]
        simp only [List.length_cons]
        omega
      · rw [if_neg hq]
        have := ih acc (k + 1)
          (fun i hi => hone i (List.mem_cons_of_mem _ hi))
        simp only [List.length_cons] at this ⊢
        omega

/-- C6: the primary batch operations (`generateStageImage` and
`generateSimilarVariant`) fail exactly when zero images were produced across
the N attempted calls; whenever at least one image was produced they return
the collected image list, whose length lies between 1 and N (given the
interface contract of at most one image per successful response). -/
theorem batch_error_iff_no_images
    (outcomes : List (Except JsError (List String))) (n : Nat)
    (hlen : outcomes.length = n) (_hn : 1 ≤ n)
    (hone : ∀ imgs, Except.ok imgs ∈ outcomes → imgs.length ≤ 1) :
    ((∃ err, generateStageImage outcomes = .error err)
        ↔ (batchLoopV1 outcomes).1 = [])
    ∧ (∀ imgs, generateStageImage outcomes = .ok imgs →
        imgs = (batchLoopV1 outcomes).1
        ∧ 1 ≤ imgs.length ∧ imgs.length ≤ n)
    ∧ ((∃ err, generateSimilarVariant outcomes = .error err)
        ↔ (batchLoopV1 outcomes).1 = [])
    ∧ (∀ imgs, generateSimilarVariant outcomes = .ok imgs →
        imgs = (batchLoopV1 outcomes).1
        ∧ 1 ≤ imgs.length ∧ imgs.length ≤ n) := by
  have hle : (batchLoopV1 outcomes).1.length ≤ n := by
    have := batchLoopV1Acc_length_le outcomes [] 0 hone
    simp only [List.length_nil, Nat.zero_add] at this
    rw [show batchLoopV1 outcomes = batchLoopV1Acc [] 0 outcomes from rfl]
    omega
  by_cases hpos : 0 < (batchLoopV1 outcomes).1.length
  · have hgen : generateStageImage outcomes = .ok (batchLoopV1 outcomes).1 := by
      unfold generateStageImage
      simp only [hpos, if_true]
    have hsim : generateSimilarVariant outcomes
        = .ok (batchLoopV1 outcomes).1 := by
      unfold generateSimilarVariant
      simp only [hpos, if_true]
    have hne : (batchLoopV1 outcomes).1 ≠ [] := by
      intro hnil
      rw [hnil] at hpos
      simp at hpos
    refine ⟨?_, ?_, ?_, ?_⟩
    · constructor
      · rintro ⟨err, herr⟩
        rw [hgen] at herr
        cases herr
      · intro hnil
        exact absurd hnil hne
    · intro imgs himgs
      rw [hgen] at himgs
      have : (batchLoopV1 outcomes).1 = imgs := by injection himgs
      subst this
      exact ⟨rfl, hpos, hle⟩
    · constructor
      · rintro ⟨err, herr⟩
        rw [hsim] at herr
        cases herr
      · intro hnil
        exact absurd hnil hne
    · intro imgs himgs
      rw [hsim] at himgs
      have : (batchLoopV1 outcomes).1 = imgs := by injection himgs
      subst this
      exact ⟨rfl, hpos, hle⟩
  · have hnil : (batchLoopV1 outcomes).1 = [] := by
      cases hfoo : (batchLoopV1 outcomes).1 with
      | nil => rfl
      | cons a as =>
        rw [hfoo] at hpos
        simp at hpos
    have hgen : generateStageImage outcomes = .error noImagesError := by
      unfold generateStageImage
      simp only [hpos, if_false]
    have hsim : generateSimilarVariant outcomes = .error noVariantError := by
      unfold generateSimilarVariant
      simp only [hpos, if_false]
    refine ⟨?_, ?_, ?_, ?_⟩
    · exact ⟨fun _ => hnil, fun _ => ⟨noImagesError, hgen⟩⟩
    · intro imgs himgs
      rw [hgen] at himgs
      cases himgs
    · exact ⟨fun _ => hnil, fun _ => ⟨noVariantError, hsim⟩⟩
    · intro imgs himgs
      rw [hsim] at himgs
      cases himgs

theorem batch_error_iff_no_images_witness :
    generateStageImage [Except.ok ["i1"],
        Except.error { message := "network down", status := none }]
      = .ok ["i1"]
    ∧ 1 ≤ (["i1"] : List String).length
    ∧ (["i1"] : List String).length ≤ 2 := by
  have hone : ∀ imgs, Except.ok imgs ∈ ([Except.ok ["i1"],
      Except.error { message := "network down", status := none }] :
        List (Except JsError (List String))) →
      imgs.length ≤ 1 := by
    intro imgs h
    simp at h
    subst h
    decide
  have h := batch_error_iff_no_images
    [Except.ok ["i1"],
      Except.error { message := "network down", status := none }]
    2 rfl (by norm_num) hone
  have hok : generateStageImage [Except.ok ["i1"],
      Except.error { message := "network down", status := none }]
      = .ok ["i1"] := by rfl
  have h2 := h.2.1 ["i1"] hok
  exact ⟨hok, h2.2.1, h2.2.2⟩

/-- The text payload produced by the description call
(`DesignResponseSchema` in `types.ts`, lines 103-112). -/
structure DesignText where
  conceptTitle : String
  description : String
  transformationSequence : String
  technicalSpecs : TechnicalSpecs
deriving Repr, DecidableEq

/-- The fixed fallback metadata returned by the catch clause of the primary
`generateStageDescription` (`src/unnamed/part_003` lines 778-789). -/
def fallbackDescription : DesignText :=
  { conceptTitle := "生成錯誤"
    description := "無法生成詳細資訊，請重試。"
    transformationSequence := "因錯誤而顯示靜態配置。"
    technicalSpecs := { lighting := "N/A", video := "N/A", specialEffects := "N/A" } }

/-- The fixed fallback metadata returned by the catch clause of the alternate
`generateStageDescription` (`src/unnamed/part_003` lines 1213-1219). -/
def fallbackDescriptionAlt : DesignText :=
  { conceptTitle := "設計概念"
    description := "無法生成描述。"
    transformationSequence := "無變動細節。"
    technicalSpecs := { lighting := "N/A", video := "N/A", specialEffects := "N/A" } }

/-- The primary `generateStageDescription` (`src/unnamed/part_003` lines
715-790): the text-model call runs through `retryWithBackoff` (3 retries,
initial delay 2000ms); `op i` settles to the optional `response.text` of
attempt `i`, and `parse` models `JSON.parse`.  A missing text (the inner
`throw` for "No text generated"), a parse failure, or any error escaping the
retry wrapper is caught and replaced by the fixed fallback record. -/
def generateStageDescription (op : Nat → Except JsError (Option String))
    (parse : String → Except JsError DesignText) : DesignText :=
  match (retryWithBackoff op 3 2000).1 with
  | .error _ => fallbackDescription
  | .ok none => fallbackDescription
  | .ok (some txt) =>
    match parse txt with
    | .ok t => t
    | .error _ => fallbackDescription

/-- The alternate `generateStageDescription` (`src/unnamed/part_003` lines
1177-1221): same structure, with a missing `response.text` making
`JSON.parse` throw, caught into the alternate fallback record. -/
def generateStageDescriptionAlt (op : Nat → Except JsError (Option String))
    (parse : String → Except JsError DesignText) : DesignText :=
  match (retryWithBackoff op 3 2000).1 with
  | .error _ => fallbackDescriptionAlt
  | .ok none => fallbackDescriptionAlt
  | .ok (some txt) =>
    match parse txt with
    | .ok t => t
    | .error _ => fallbackDescriptionAlt

/-- C10: `generateStageDescription` never propagates an error of the
underlying text-model call: whenever the retry-wrapped call settles to an
error (rate-limit or otherwise, including after retries are exhausted), both
implementations return their fixed placeholder record, whose technical specs
are all `N/A`; in every case the result is either a successfully parsed
payload or that fixed placeholder. -/
theorem description_never_fails (op : Nat → Except JsError (Option String))
    (parse : String → Except JsError DesignText) :
    ((∃ e, (retryWithBackoff op 3 2000).1 = .error e) →
      generateStageDescription op parse = fallbackDescription
      ∧ generateStageDescriptionAlt op parse = fallbackDescriptionAlt)
    ∧ fallbackDescription.technicalSpecs
        = { lighting := "N/A", video := "N/A", specialEffects := "N/A" }
    ∧ fallbackDescriptionAlt.technicalSpecs
        = { lighting := "N/A", video := "N/A", specialEffects := "N/A" }
    ∧ (generateStageDescription op parse = fallbackDescription
        ∨ ∃ txt t, (retryWithBackoff op 3 2000).1 = .ok (some txt)
            ∧ parse txt = .ok t ∧ generateStageDescription op parse = t) := by
  refine ⟨?_, rfl, rfl, ?_⟩
  · rintro ⟨e, he⟩
    constructor
    · unfold generateStageDescription
      rw [he]
    · unfold generateStageDescriptionAlt
      rw [he]
  · unfold generateStageDescription
    cases hres : (retryWithBackoff op 3 2000).1 with
    | error e =>
      left
      rfl
    | ok txt? =>
      cases txt? with
      | none =>
        left
        rfl
      | some txt =>
        cases hp : parse txt with
        | ok t =>
          right
          exact ⟨txt, t, rfl, hp, by simp only [hp]⟩
        | error e =>
          left
          simp only [hp]

theorem description_never_fails_witness :
    (retryWithBackoff
        (fun _ => (.error { message := "boom", status := none }
          : Except JsError (Option String))) 3 2000).1
      = .error { message := "boom", status := none }
    ∧ generateStageDescription
        (fun _ => .error { message := "boom", status := none })
        (fun _ => .error { message := "parse", status := none })
      = fallbackDescription := by
  refine ⟨rfl, ?_⟩
  exact ((description_never_fails
    (fun _ => .error { message := "boom", status := none })
    (fun _ => .error { message := "parse", status := none })).1
    ⟨{ message := "boom", status := none }, rfl⟩).1

/-- The app-level state relevant to the session claims (`src/App.tsx`):
the current design, the library (the `savedDesigns` state mirrors its
contents), the autosave flag, and the last surfaced error.  The source
renders errors to localized strings; here the raw error value is recorded
instead, since no claim inspects the rendered text. -/
structure SessionState where
  currentDesign : Option GeneratedDesign
  library : LibraryState
  autoSave : Bool
  lastError : Option JsError
deriving Repr, DecidableEq

/-- `updateDesignState` (`src/App.tsx` lines 52-64): set the current design
and, when autosave or a forced save is on, upsert it into the library. -/
def updateDesignState (st : SessionState) (design : GeneratedDesign)
    (forceSave : Bool) : SessionState :=
  { st with
    currentDesign := some design
    library :=
      if st.autoSave || forceSave then saveDesignToLibrary st.library design
      else st.library }

/-- `handleEditImage` (`src/App.tsx` lines 208-240): on success append the
new image through the truncate-and-append update and commit via
`updateDesignState`; on failure only an error is surfaced — the current
design and the library are untouched.  `editResult` is the settled outcome
of the `editStageImage` call. -/
def handleEditImage (st : SessionState)
    (editResult : Except JsError String) : SessionState :=
  match st.currentDesign with
  | none => st
  | some prev =>
    match editResult with
    | .ok newImageUrl =>
      updateDesignState st (editImageUpdate prev newImageUrl) false
    | .error e => { st with lastError := some e }

/-- `handleViewpointChange` (`src/App.tsx` lines 242-274): same structure as
`handleEditImage`, with the viewpoint-variant call. -/
def handleViewpointChange (st : SessionState)
    (variantResult : Except JsError String) : SessionState :=
  match st.currentDesign with
  | none => st
  | some prev =>
    match variantResult with
    | .ok newImageUrl =>
      updateDesignState st (viewpointUpdate prev newImageUrl) false
    | .error e => { st with lastError := some e }

/-- `handleUpscale` (`src/App.tsx` lines 149-206).  `variantUrl` is the
image being upscaled, `newId` the `crypto.randomUUID()` drawn in the
fallback branch, `upscaleResult` the settled outcome of
`upscaleStageImage`.  The target is looked up among the saved designs by
image url; when absent it is reconstructed from the current design under a
fresh id with history `[variantUrl]`.  On success the upscaled image is
appended to the target's history; on failure the target is STILL passed to
`updateDesignState` (history and cursor unchanged, `variants` cleared,
`imageUrl` set to `variantUrl`), so a record is written even though the
call failed. -/
def handleUpscale (st : SessionState) (variantUrl newId : String)
    (upscaleResult : Except JsError String) : SessionState :=
  let tgt := st.library.designs.find? (fun d => d.imageUrl == variantUrl)
  let fb : Option GeneratedDesign :=
    match st.currentDesign with
    | some cd =>
      if cd.imageUrl == variantUrl || cd.variants.contains variantUrl then
        some { cd with
          id := newId
          imageUrl := variantUrl
          variants := []
          imageHistory := [variantUrl]
          historyIndex := 0 }
      else none
    | none => none
  match tgt.orElse (fun _ => fb) with
  | none =>
    { st with lastError := some ⟨"無法找到原始設計檔案 (Original design not found)", none⟩ }
  | some target =>
    match upscaleResult with
    | .ok upscaledUrl =>
      updateDesignState st
        { target with
          imageUrl := upscaledUrl
          variants := []
          imageHistory := target.imageHistory ++ [upscaledUrl]
          historyIndex := target.imageHistory.length } false
    | .error e =>
      updateDesignState { st with lastError := some e }
        { target with
          imageUrl := variantUrl
          variants := []
          imageHistory := target.imageHistory
          historyIndex := target.historyIndex } false

/-- C3 counterexample: a failed upscale still creates and persists a new
design record.  With an empty library, autosave on, and a current design
showing image `v` that is not saved, `handleUpscale` on `v` fails with a
network error — yet afterwards the library holds a fresh record under the
new id.  The claim requires that no new Design record be created or
persisted as a result of the failed call. -/
theorem upscale_failure_persists_counterexample :
    (handleUpscale
        { currentDesign := some (mkDesign "cur" "v" ["v"] 0)
          library := { designs := [], folders := [] }
          autoSave := true
          lastError := none }
        "v" "fresh"
        (.error { message := "network down", status := none })
      ).library.designs.map GeneratedDesign.id = ["fresh"] := by
  decide

theorem saveDesign_mem (lib : LibraryState) (d : GeneratedDesign) :
    ∃ saved ∈ (saveDesignToLibrary lib d).designs,
      saved.id = d.id ∧ saved.imageHistory = d.imageHistory
        ∧ saved.historyIndex = d.historyIndex :=
  ⟨_, List.mem_of_find?_eq_some (find_idbPut lib.designs _), rfl, rfl, rfl⟩

/-- C3 amended: a failed edit or viewpoint-change leaves the session
unchanged apart from the surfaced error (same current design, same
library).  A failed upscale keeps the target design's history and cursor
but still writes: when the target was found among the saved designs, the
current design becomes the target with `variants` cleared and `imageUrl`
set to the upscaled source (history and cursor untouched); when the target
was reconstructed from the current design, the current design becomes a new
record under the fresh id with history `[variantUrl]` and cursor 0, and
with autosave on that new record is persisted to the library. -/
theorem failed_ops_atomicity (st : SessionState) (e : JsError)
    (variantUrl newId : String) :
    ((handleEditImage st (.error e)).currentDesign = st.currentDesign
      ∧ (handleEditImage st (.error e)).library = st.library)
    ∧ ((handleViewpointChange st (.error e)).currentDesign = st.currentDesign
      ∧ (handleViewpointChange st (.error e)).library = st.library)
    ∧ (∀ target,
        st.library.designs.find? (fun d => d.imageUrl == variantUrl)
            = some target →
        (handleUpscale st variantUrl newId (.error e)).currentDesign
          = some { target with imageUrl := variantUrl, variants := [] })
    ∧ (∀ cd,
        st.library.designs.find? (fun d => d.imageUrl == variantUrl)
            = none →
        st.currentDesign = some cd →
        (cd.imageUrl == variantUrl || cd.variants.contains variantUrl)
            = true →
        (handleUpscale st variantUrl newId (.error e)).currentDesign
          = some { cd with id := newId, imageUrl := variantUrl, variants := [], imageHistory := [variantUrl], historyIndex := 0 }
        ∧ (st.autoSave = true →
            ∃ saved ∈ (handleUpscale st variantUrl newId
                (.error e)).library.designs,
              saved.id = newId ∧ saved.imageHistory = [variantUrl]
                ∧ saved.historyIndex = 0)) := by
  refine ⟨⟨?_, ?_⟩, ⟨?_, ?_⟩, ?_, ?_⟩
  · unfold handleEditImage
    cases h : st.currentDesign with
    | none => exact h
    | some prev => rfl
  · unfold handleEditImage
    cases h : st.currentDesign with
    | none => rfl
    | some prev => rfl
  · unfold handleViewpointChange
    cases h : st.currentDesign with
    | none => exact h
    | some prev => rfl
  · unfold handleViewpointChange
    cases h : st.currentDesign with
    | none => rfl
    | some prev => rfl
  · intro target hfind
    unfold handleUpscale
    simp only [hfind, Option.orElse]
    rfl
  · intro cd hnone hcd hcond
    have hred : handleUpscale st variantUrl newId (.error e)
        = updateDesignState { st with lastError := some e }
            { cd with id := newId, imageUrl := variantUrl, variants := [], imageHistory := [variantUrl], historyIndex := 0 } false := by
      unfold handleUpscale
      simp only [hnone, hcd, hcond, Option.orElse, if_true]
    rw [hred]
    constructor
    · rfl
    · intro hauto
      simp only [updateDesignState, hauto, Bool.true_or, if_true]
      exact saveDesign_mem st.library _

theorem failed_ops_atomicity_witness :
    (handleUpscale
        { currentDesign := some (mkDesign "cur" "v" ["v"] 0)
          library := { designs := [], folders := [] }
          autoSave := true
          lastError := none }
        "v" "fresh" (.error { message := "network down", status := none })
      ).currentDesign
      = some { mkDesign "cur" "v" ["v"] 0 with id := "fresh", imageUrl := "v", variants := [], imageHistory := ["v"], historyIndex := 0 }
    ∧ ∃ saved ∈ (handleUpscale
        { currentDesign := some (mkDesign "cur" "v" ["v"] 0)
          library := { designs := [], folders := [] }
          autoSave := true
          lastError := none }
        "v" "fresh" (.error { message := "network down", status := none })
      ).library.designs,
      saved.id = "fresh" ∧ saved.imageHistory = ["v"]
        ∧ saved.historyIndex = 0 := by
  have h := (failed_ops_atomicity
    { currentDesign := some (mkDesign "cur" "v" ["v"] 0)
      library := { designs := [], folders := [] }
      autoSave := true
      lastError := none }
    { message := "network down", status := none } "v" "fresh").2.2.2
    (mkDesign "cur" "v" ["v"] 0) rfl rfl (by decide)
  exact ⟨h.1, h.2 rfl⟩
